import Mathlib

/-!
Verification development for a Game Boy (DMG) emulator core.

This file gives a shallow embedding, in Lean, of the parts of the emulator
that the checked properties talk about: the 16-bit register representation
(src/cpu.rs), the flag and condition machinery (src/cpu.rs,
src/instructions/routines.rs), the ADC arithmetic (src/instructions/arithmetics.rs),
the CB-prefixed instruction decoder (src/instructions/mod.rs), the memory bus
with its MBC state machines (src/memory/mod.rs), the memory-mapped I/O
constants (src/memory/locations.rs), and the interrupt-service step of the
tick loop (src/cpu.rs).  Machine integers are modelled as `Nat` with explicit
masking / `% 2^w` where the Rust code wraps; Rust `panic!`/`unreachable!` in
decoding paths is modelled with `Option`.
-/

namespace GBemu

/-- `ROM_BANK_SIZE` from src/lib.rs. -/
def ROM_BANK_SIZE : Nat := 0x4000

/-- `RAM_BANK_SIZE` from src/lib.rs. -/
def RAM_BANK_SIZE : Nat := 0x2000

namespace locations

/-- Divider register address, src/memory/locations.rs. -/
def DIV : Nat := 0xFF04

/-- Timer counter address, src/memory/locations.rs. -/
def TIMA : Nat := 0xFF05

/-- Timer modulo address, src/memory/locations.rs. -/
def TMA : Nat := 0xFF06

/-- Timer control address, src/memory/locations.rs. -/
def TAC : Nat := 0xFF07

/-- Interrupt-flag register address, src/memory/locations.rs. -/
def IF : Nat := 0xFF0F

/-- LCD control register address, src/memory/locations.rs. -/
def LCDC : Nat := 0xFF40

/-- LCDC Y-coordinate register address, src/memory/locations.rs. -/
def LY : Nat := 0xFF44

/-- Interrupt-enable register address as declared in src/memory/locations.rs,
line 206: `pub const IE: usize = 0xFF40;` (it collides with `LCDC`; the
hardware address would be 0xFFFF). The embedding keeps the source's value. -/
def IE : Nat := 0xFF40

end locations

/-! ## The `Register` union (src/cpu.rs, lines 26-30)

The source declares `union Register { value: u16, hi: u8, lo: u8 }`.
Every field of a Rust union is stored at offset 0 inside the union, so the
one-byte fields `hi` and `lo` denote the same byte of storage: the byte at
offset 0 of the two-byte `value`.  On a little-endian host that byte holds
bits 7-0 of `value`.  The accessors below embed exactly that layout: a
register is its 16-bit `value` (a `Nat` kept below 2^16), and `hi`/`lo`
both read and write the offset-0 byte, i.e. bits 7-0 on little-endian. -/

/-- Reading `Register.hi`: the byte at union offset 0 (bits 7-0 of `value`
on a little-endian host). -/
def regGetHi (r : Nat) : Nat := r % 256

/-- Reading `Register.lo`: the byte at union offset 0, the same byte
`regGetHi` reads. -/
def regGetLo (r : Nat) : Nat := r % 256

/-- Writing `Register.hi`: replaces the byte at union offset 0 (bits 7-0 of
`value` on a little-endian host), leaving bits 15-8 in place. -/
def regSetHi (r v : Nat) : Nat := r - r % 256 + v % 256

/-- Writing `Register.lo`: replaces the same offset-0 byte as `regSetHi`. -/
def regSetLo (r v : Nat) : Nat := r - r % 256 + v % 256

/-! ## MBC state (src/memory/mod.rs, `MemoryMode`) -/

/-- `MemoryMode` from src/memory/mod.rs: the per-cartridge bank-controller
state, one variant active per cartridge. -/
inductive MemoryMode where
  | romOnly
  | mbc1 (rom_bank_idx ram_bank_idx : Nat) (ram_enabled ram_banking : Bool)
  | mbc2 (rom_bank_idx : Nat) (ram_enabled : Bool)
  | mbc3 (rom_bank_idx ram_bank_idx : Nat) (ram_rtc_enabled : Bool)
      (rtc_selected : Option Nat) (rtc_latched : Bool)
      (rtc_seconds rtc_minutes rtc_hours rtc_days : Nat)
  | mbc5 (rom_bank_idx ram_bank_idx : Nat) (ram_enabled rumble_enabled : Bool)
  deriving DecidableEq

/-- `Memory::rom_bank_idx` from src/memory/mod.rs. -/
def romBankIdx : MemoryMode → Nat
  | .romOnly => 1
  | .mbc1 r _ _ _ => r
  | .mbc2 r _ => r
  | .mbc3 r _ _ _ _ _ _ _ _ => r
  | .mbc5 r _ _ _ => r

/-- `Memory::ram_bank_idx` from src/memory/mod.rs. -/
def ramBankIdx : MemoryMode → Nat
  | .romOnly => 0
  | .mbc1 _ r _ _ => r
  | .mbc2 _ _ => 0
  | .mbc3 _ r _ _ _ _ _ _ _ => r
  | .mbc5 _ r _ _ => r

/-- The `MBC1 { rom_bank_idx: 1, ram_bank_idx: 0, ram_enabled: false,
ram_banking: true }` power-up state built by `From<CartridgeType> for
MemoryMode` in src/memory/mod.rs. -/
def mbc1PowerUp : MemoryMode := .mbc1 1 0 false true

/-- The machine state the memory bus operates on: the bank-controller state,
the 64 KiB internal memory image (`memory`), the cartridge ROM image
(`cartridge`) and the external-RAM buffer (`ram`), as held by `GameBoy` in
src/lib.rs.  Byte buffers are total functions from address to byte. -/
structure GB where
  mode : MemoryMode
  mem : Nat → Nat
  cartridge : Nat → Nat
  ram : Nat → Nat

/-- Pointwise update of a byte buffer (a slice store `buf[a] = v`). -/
def updf (f : Nat → Nat) (a v : Nat) : Nat → Nat :=
  fun x => if x = a then v else f x

/-- `Read::read_u8` from src/memory/mod.rs.  The MBC2 enabled-RAM branch of
the source rebases the address by 0xA000 and then matches the rebased value
against `0xA000..=0xA1FF` / `0xA200..=0xBFFF`, so it always falls through to
`unreachable!()`; no checked claim exercises that branch, and the embedding
returns 0 there (marking the panic). -/
def read_u8 (s : GB) (address : Nat) : Nat :=
  if address ≤ 0x3FFF then s.cartridge address
  else if address ≤ 0x7FFF then
    s.cartridge (address - 0x4000 + romBankIdx s.mode * ROM_BANK_SIZE)
  else if 0xA000 ≤ address ∧ address ≤ 0xBFFF then
    match s.mode with
    | .mbc1 _ ram_bank_idx ram_enabled _ =>
      if ram_enabled then s.ram (address - 0xA000 + ram_bank_idx * RAM_BANK_SIZE) else 0
    | .mbc5 _ ram_bank_idx ram_enabled _ =>
      if ram_enabled then s.ram (address - 0xA000 + ram_bank_idx * RAM_BANK_SIZE) else 0
    | .mbc2 _ ram_enabled =>
      if ram_enabled then 0 else 0
    | .mbc3 _ ram_bank_idx ram_rtc_enabled rtc_selected _ rtc_seconds rtc_minutes
        rtc_hours rtc_days =>
      if ram_rtc_enabled then
        match rtc_selected with
        | some selected =>
          if selected = 0x08 then rtc_seconds
          else if selected = 0x09 then rtc_minutes
          else if selected = 0x0A then rtc_hours
          else if selected = 0x0B then rtc_days &&& 0xFF
          else if selected = 0x0C then (rtc_days >>> 8) &&& 0xFF
          else 0
        | none => s.ram (address - 0xA000 + ram_bank_idx * RAM_BANK_SIZE)
      else 0
    | .romOnly => s.ram (address - 0xA000 + ramBankIdx s.mode * RAM_BANK_SIZE)
  else if 0xE000 ≤ address ∧ address ≤ 0xFDFF then s.mem (address - 0x2000)
  else s.mem address

/-- `Read::read_u16` from src/memory/mod.rs: little-endian composition of two
byte reads. -/
def read_u16 (s : GB) (address : Nat) : Nat :=
  let lower := read_u8 s address
  let upper := read_u8 s (address + 1)
  (upper <<< 8) ||| lower

/-- The MBC-register phase of `Write::write_u8` (src/memory/mod.rs): the
`match self.memory_mode_mut()` block that mutates only the bank-controller
state. -/
def mbcRegisterWrite (mode : MemoryMode) (address value : Nat) : MemoryMode :=
  match mode with
  | .romOnly => .romOnly
  | .mbc1 rom_bank_idx ram_bank_idx ram_enabled ram_banking =>
    if address ≤ 0x1FFF then
      .mbc1 rom_bank_idx ram_bank_idx (value &&& 0b1111 == 0b1010) ram_banking
    else if address ≤ 0x3FFF then
      let bank := value &&& 0b11111
      .mbc1 (if bank == 0 then 1 else bank) ram_bank_idx ram_enabled ram_banking
    else if address ≤ 0x5FFF then
      let bank := value &&& 0b11
      if ram_banking then .mbc1 rom_bank_idx bank ram_enabled ram_banking
      else .mbc1 ((bank <<< 5) + (rom_bank_idx &&& 0b11111)) ram_bank_idx
        ram_enabled ram_banking
    else if address ≤ 0x7FFF then
      .mbc1 rom_bank_idx ram_bank_idx ram_enabled (value &&& 0b1 == 0b1)
    else mode
  | .mbc2 rom_bank_idx ram_enabled =>
    if address ≤ 0x3FFF then
      let bank_switching := value &&& (0b1 <<< 7) == 0b10000000
      if bank_switching then
        let bank := value &&& 0b1111
        .mbc2 (if bank == 0 then 1 else bank) ram_enabled
      else .mbc2 rom_bank_idx (value &&& 0b1111 == 0b1010)
    else mode
  | .mbc3 rom_bank_idx ram_bank_idx ram_rtc_enabled rtc_selected rtc_latched
      rtc_seconds rtc_minutes rtc_hours rtc_days =>
    if address ≤ 0x1FFF then
      .mbc3 rom_bank_idx ram_bank_idx (value &&& 0b1111 == 0b1010) rtc_selected
        rtc_latched rtc_seconds rtc_minutes rtc_hours rtc_days
    else if address ≤ 0x3FFF then
      let bank := value &&& 0b1111111
      .mbc3 (if bank == 0 then 1 else bank) ram_bank_idx ram_rtc_enabled
        rtc_selected rtc_latched rtc_seconds rtc_minutes rtc_hours rtc_days
    else if address ≤ 0x5FFF then
      if value ≤ 0x03 then
        .mbc3 rom_bank_idx (value &&& 0b11) ram_rtc_enabled none rtc_latched
          rtc_seconds rtc_minutes rtc_hours rtc_days
      else if 0x08 ≤ value ∧ value ≤ 0x0C then
        .mbc3 rom_bank_idx ram_bank_idx ram_rtc_enabled (some value) rtc_latched
          rtc_seconds rtc_minutes rtc_hours rtc_days
      else mode
    else if address ≤ 0x7FFF then
      .mbc3 rom_bank_idx ram_bank_idx ram_rtc_enabled rtc_selected
        (value &&& 0b1 == 0b1) rtc_seconds rtc_minutes rtc_hours rtc_days
    else mode
  | .mbc5 rom_bank_idx ram_bank_idx ram_enabled rumble_enabled =>
    if address ≤ 0x1FFF then
      .mbc5 rom_bank_idx ram_bank_idx (value &&& 0b1111 == 0b1010) rumble_enabled
    else if address ≤ 0x2FFF then
      .mbc5 (if value == 0 then 1 else value) ram_bank_idx ram_enabled rumble_enabled
    else if address ≤ 0x3FFF then
      let bank := value &&& 0b1
      .mbc5 ((bank <<< 8) + (rom_bank_idx &&& 0b11111111)) ram_bank_idx
        ram_enabled rumble_enabled
    else if address ≤ 0x5FFF then
      .mbc5 rom_bank_idx (value &&& 0b1111) ram_enabled (value &&& 0b100 == 0b100)
    else mode

/-- The RAM-bank phase of `Write::write_u8` (src/memory/mod.rs): for an
address in `0xA000..=0xBFFF`, the write lands (when permitted) in the
external-RAM buffer; every other component of the state is left alone. -/
def ramWindowWriteRam (mode : MemoryMode) (ram : Nat → Nat)
    (address value : Nat) : Nat → Nat :=
  match mode with
  | .mbc1 _ ram_bank_idx ram_enabled _ =>
    if ram_enabled then updf ram (address - 0xA000 + ram_bank_idx * RAM_BANK_SIZE) value
    else ram
  | .mbc5 _ ram_bank_idx ram_enabled _ =>
    if ram_enabled then updf ram (address - 0xA000 + ram_bank_idx * RAM_BANK_SIZE) value
    else ram
  | .mbc3 _ ram_bank_idx ram_rtc_enabled rtc_selected _ _ _ _ _ =>
    if rtc_selected.isNone && ram_rtc_enabled then
      updf ram (address - 0xA000 + ram_bank_idx * RAM_BANK_SIZE) value
    else ram
  | .mbc2 _ ram_enabled =>
    if address ≤ 0xA1FF then
      if ram_enabled then updf ram (address - 0xA000) value else ram
    else
      if ram_enabled then updf ram ((address - 0xA000) &&& 0x1FF) value else ram
  | .romOnly => ram

/-- The normal-write phase of `Write::write_u8` (src/memory/mod.rs): the
final `match address` block, which only ever stores into the 64 KiB internal
memory image. -/
def normalWriteMem (mem : Nat → Nat) (address value : Nat) : Nat → Nat :=
  if address ≤ 0x7FFF ∨ (0xFEA0 ≤ address ∧ address ≤ 0xFEFF) then mem
  else if 0xE000 ≤ address ∧ address ≤ 0xFDFF then updf mem (address - 0x2000) value
  else if address = locations.DIV ∨ address = locations.LY then updf mem address 0
  else if address = locations.TAC then
    let current_freq := mem locations.TAC &&& 0b11
    let new_freq := value &&& 0b11
    if current_freq ≠ new_freq then updf mem locations.TIMA 0 else mem
  else updf mem address value

/-- `Write::write_u8` from src/memory/mod.rs: first the MBC-register decode,
then either the RAM-bank write (for `0xA000..=0xBFFF`, returning early) or
the normal-write decode. -/
def write_u8 (s : GB) (address value : Nat) : GB :=
  let s1 : GB := { s with mode := mbcRegisterWrite s.mode address value }
  if 0xA000 ≤ address ∧ address ≤ 0xBFFF then
    { s1 with ram := ramWindowWriteRam s1.mode s1.ram address value }
  else
    { s1 with mem := normalWriteMem s1.mem address value }

/-- `Write::write_u16` from src/memory/mod.rs: low byte at `address`, high
byte at `address + 1`. -/
def write_u16 (s : GB) (address value : Nat) : GB :=
  let upper := (value >>> 8) &&& 0xFF
  let lower := value &&& 0xFF
  write_u8 (write_u8 s address lower) (address + 1) upper

/-- A sequence of byte writes applied left to right through the bus. -/
def writeSeq (s : GB) : List (Nat × Nat) → GB
  | [] => s
  | (a, v) :: rest => writeSeq (write_u8 s a v) rest

/-! ## The interrupt-service step of `Cpu::tick` (src/cpu.rs, lines 201-249)

The registers the step touches are SP, PC and the IME flip-flop; these are
accessed through `Register.value` in the source, so the union layout of the
8-bit halves plays no role here.  SP arithmetic wraps at 2^16. -/

/-- The CPU-visible state used by the interrupt-service step: the bus state
plus SP, PC and IME from `RegisterFile` (src/cpu.rs). -/
structure Machine where
  gb : GB
  sp : Nat
  pc : Nat
  ime : Bool

/-- One iteration of the `for i in (0..5).rev()` interrupt loop of
`Cpu::tick` (src/cpu.rs): if bit `i` of `enabled` is set, clear IME, store
`iflag` with bit `i` cleared into IF, push PC like a CALL, and jump to the
vector for bit `i`.  `iflag` and `enabled` are the values read once before
the loop; `!(1 << i)` on a `u8` is `(1 <<< i) ^^^ 0xFF`. -/
def serviceOne (iflag enabled : Nat) (s : Machine) (i : Nat) : Machine :=
  if enabled &&& (1 <<< i) ≠ 0 then
    let gb1 := write_u8 s.gb locations.IF (iflag &&& ((1 <<< i) ^^^ 0xFF))
    let s1 : Machine := { s with ime := false, gb := gb1 }
    let sp' := (s1.sp + 0x10000 - 2) % 0x10000
    let s2 : Machine := { s1 with sp := sp', gb := write_u16 s1.gb sp' s1.pc }
    let vec :=
      if i = 0 then 0x40
      else if i = 1 then 0x48
      else if i = 2 then 0x50
      else if i = 3 then 0x58
      else 0x60
    { s2 with pc := vec }
  else s

/-- The interrupt-service block at the end of `Cpu::tick` (src/cpu.rs,
lines 201-249): when IME is set, read IF (0xFF0F) and IE (`locations::IE`,
which the source defines as 0xFF40), and if IF is non-zero run the service
loop over bits 4 down to 0 of `IF & IE`. -/
def serviceInterrupts (s : Machine) : Machine :=
  if s.ime then
    let iflag := read_u8 s.gb locations.IF
    let ienable := read_u8 s.gb locations.IE
    if iflag > 0 then
      [4, 3, 2, 1, 0].foldl (serviceOne iflag (iflag &&& ienable)) s
    else s
  else s

/-! ## 8-bit operand indices and the CB-prefixed decoder
(src/instructions/mod.rs) -/

/-- `Register8Index` from src/instructions/mod.rs (the `HL` variant denotes
the memory operand `(HL)`). -/
inductive Reg8 where
  | a | b | c | d | e | h | l | f | hlPtr
  deriving DecidableEq

/-- `From<u8> for Register8Index` from src/instructions/mod.rs; the
out-of-range `panic!` is `none`. -/
def reg8FromNat (value : Nat) : Option Reg8 :=
  if value = 0x0 then some .b
  else if value = 0x1 then some .c
  else if value = 0x2 then some .d
  else if value = 0x3 then some .e
  else if value = 0x4 then some .h
  else if value = 0x5 then some .l
  else if value = 0x6 then some .hlPtr
  else if value = 0x7 then some .a
  else none

/-- The CB-prefixed instructions built by the decoder: `bits::Rotate`,
`bits::Shift`, `bits::Swap` and `bits::Bit` from src/instructions/bits.rs. -/
inductive CBInstr where
  | rotateLeftCarry (r : Reg8)
  | rotateRightCarry (r : Reg8)
  | rotateLeft (r : Reg8)
  | rotateRight (r : Reg8)
  | shiftLeft (r : Reg8)
  | shiftRight (r : Reg8)
  | swap (r : Reg8)
  | shiftRightLogically (r : Reg8)
  | bitTest (idx : Nat) (r : Reg8)
  | bitReset (idx : Nat) (r : Reg8)
  | bitSet (idx : Nat) (r : Reg8)
  deriving DecidableEq

/-- The `0xCB => match self.fetch() { ... }` arm of
`InstructionDecoder::decode` (src/instructions/mod.rs, lines 398-451).
`opcode` is the first byte (0xCB when this arm is reached) and `cb` is the
second, fetched byte.  The arms of the source match on the fetched byte but
compute the operand as `Register8Index::from(opcode & 0b111)` and the BIT/
RES/SET index as `(opcode & 0b111) >> 3`, both from the first byte; the
embedding reproduces that.  A byte no arm covers (0x0F) hits the source's
`panic!`, here `none`. -/
def decodeCB (opcode cb : Nat) : Option CBInstr :=
  if cb ≤ 0x07 then (reg8FromNat (opcode &&& 0b111)).map .rotateLeftCarry
  else if 0x08 ≤ cb ∧ cb ≤ 0x0E then (reg8FromNat (opcode &&& 0b111)).map .rotateRightCarry
  else if 0x10 ≤ cb ∧ cb ≤ 0x17 then (reg8FromNat (opcode &&& 0b111)).map .rotateLeft
  else if 0x18 ≤ cb ∧ cb ≤ 0x1F then (reg8FromNat (opcode &&& 0b111)).map .rotateRight
  else if 0x20 ≤ cb ∧ cb ≤ 0x27 then (reg8FromNat (opcode &&& 0b111)).map .shiftLeft
  else if 0x28 ≤ cb ∧ cb ≤ 0x2F then (reg8FromNat (opcode &&& 0b111)).map .shiftRight
  else if 0x30 ≤ cb ∧ cb ≤ 0x37 then (reg8FromNat (opcode &&& 0b111)).map .swap
  else if 0x38 ≤ cb ∧ cb ≤ 0x3F then (reg8FromNat (opcode &&& 0b111)).map .shiftRightLogically
  else if 0x40 ≤ cb ∧ cb ≤ 0x7F then
    (reg8FromNat (opcode &&& 0b111)).map (.bitTest ((opcode &&& 0b111) >>> 3))
  else if 0x80 ≤ cb ∧ cb ≤ 0xBF then
    (reg8FromNat (opcode &&& 0b111)).map (.bitReset ((opcode &&& 0b111) >>> 3))
  else if 0xC0 ≤ cb ∧ cb ≤ 0xFF then
    (reg8FromNat (opcode &&& 0b111)).map (.bitSet ((opcode &&& 0b111) >>> 3))
  else none

/-! ## Flags, conditions and conditional control flow
(src/cpu.rs and src/instructions/routines.rs) -/

/-- `Flag` from src/cpu.rs. -/
inductive CpuFlag where
  | zero | subtract | halfCarry | carry
  deriving DecidableEq

/-- `Registers::test_flag` from src/cpu.rs, reading the flag bits of the
stored flags byte (the byte `af.lo` denotes). -/
def testFlag (fByte : Nat) : CpuFlag → Bool
  | .zero => fByte &&& 0b10000000 != 0
  | .subtract => fByte &&& 0b01000000 != 0
  | .halfCarry => fByte &&& 0b00100000 != 0
  | .carry => fByte &&& 0b00010000 != 0

/-- `Condition` from src/instructions/routines.rs. -/
inductive Condition where
  | zero | notZero | carry | notCarry
  deriving DecidableEq

/-- `impl From<Condition> for Flag` from src/instructions/routines.rs,
lines 13-22: both `Zero` and `NotZero` map to `Flag::Zero`, both `Carry`
and `NotCarry` to `Flag::Carry`. -/
def conditionToFlag : Condition → CpuFlag
  | .zero => .zero
  | .notZero => .zero
  | .carry => .carry
  | .notCarry => .carry

/-- The state touched by `Jump::Relative`: the flags byte read by
`test_flag` and the program counter. -/
structure JrState where
  fByte : Nat
  pc : Nat

/-- The `Jump::Relative` arm of `Jump::execute`
(src/instructions/routines.rs, lines 84-93): if a condition is present and
`test_flag` of its converted flag is false, return 8 cycles without moving
PC; otherwise `pc.wrapping_add(value as u16)` and 12 cycles.  The signed
offset is an `Int` in `[-128, 127]`. -/
def jumpRelative (cond : Option Condition) (value : Int) (s : JrState) :
    JrState × Nat :=
  match cond with
  | some c =>
    if !(testFlag s.fByte (conditionToFlag c)) then (s, 8)
    else ({ s with pc := (((s.pc : Int) + value).emod 0x10000).toNat }, 12)
  | none => ({ s with pc := (((s.pc : Int) + value).emod 0x10000).toNat }, 12)

/-! ## ADC (src/instructions/arithmetics.rs, `Adc::execute`) -/

/-- The outputs of one 8-bit ALU operation: the byte stored into A and the
four flag assignments. -/
structure AluOut where
  result : Nat
  z : Bool
  n : Bool
  h : Bool
  c : Bool
  deriving DecidableEq

/-- The value/flag computation of `Adc::execute`
(src/instructions/arithmetics.rs, lines 14-26; the `Immediate` arm at lines
28-40 is the same computation): `a.overflowing_add(value + carry)` where
`value + carry` is a `u8` addition and therefore wraps at 256 (release-mode
semantics; a debug build panics on that overflow), then
`Z = (result == 0)`, `N = 0`, `C = overflow`,
`H = (a & 0x0F) + (value & 0x0F) + carry > 0x0F`. -/
def adcExecute (a value carry : Nat) : AluOut :=
  let addend := (value + carry) % 256
  let result := (a + addend) % 256
  let overflow := decide (a + addend > 0xFF)
  { result := result
    z := result == 0
    n := false
    h := decide ((a &&& 0x0F) + (value &&& 0x0F) + carry > 0x0F)
    c := overflow }

/-! ## Derived facts about the bus used by several theorems -/

/-- Helper: whether the MBC state is MBC1 or MBC5 with external RAM
disabled (the situation claim C7 quantifies over). -/
def mbc15RamDisabled : MemoryMode → Bool
  | .mbc1 _ _ ram_enabled _ => !ram_enabled
  | .mbc5 _ _ ram_enabled _ => !ram_enabled
  | _ => false

theorem write_u8_mode (s : GB) (a v : Nat) :
    (write_u8 s a v).mode = mbcRegisterWrite s.mode a v := by
  unfold write_u8
  split <;> rfl

theorem write_u8_cartridge (s : GB) (a v : Nat) :
    (write_u8 s a v).cartridge = s.cartridge := by
  unfold write_u8
  split <;> rfl

theorem read_u8_rom_bank (s : GB) (a : Nat) (h1 : 0x4000 ≤ a) (h2 : a ≤ 0x7FFF) :
    read_u8 s a = s.cartridge (a - 0x4000 + romBankIdx s.mode * ROM_BANK_SIZE) := by
  unfold read_u8
  rw [if_neg (by omega), if_pos h2]

/-! ## Concrete states used by the closed theorems -/

/-- An all-zero byte buffer. -/
def zeroBuf : Nat → Nat := fun _ => 0

/-- A bus state for claim C7: MBC1 with `ram_enabled = false` and every
external-RAM byte equal to 0xFF. -/
def c7State : GB := ⟨.mbc1 1 0 false true, zeroBuf, zeroBuf, fun _ => 0xFF⟩

/-- Internal memory for claim C8: TAC (0xFF07) holds its power-up value
0xF8, TIMA (0xFF05) holds 0x33. -/
def c8Mem : Nat → Nat := fun a => if a = 0xFF07 then 0xF8 else if a = 0xFF05 then 0x33 else 0

/-- A bus state for claim C8. -/
def c8State : GB := ⟨.romOnly, c8Mem, zeroBuf, zeroBuf⟩

/-- Internal memory for claim C4: IF (0xFF0F) = 0x01 and IE (0xFFFF) = 0x01;
every other byte, in particular the byte at 0xFF40, is 0. -/
def c4Mem : Nat → Nat := fun a => if a = 0xFF0F then 1 else if a = 0xFFFF then 1 else 0

/-- The machine of claim C4's concrete scenario: IME = 1, IE = 0x01,
IF = 0x01, SP = 0xFFFE, PC = 0x1234. -/
def c4Machine : Machine := ⟨⟨.romOnly, c4Mem, zeroBuf, zeroBuf⟩, 0xFFFE, 0x1234, true⟩

/-- A bus state for claim C10's witness: RomOnly cartridge whose external-RAM
buffer holds 0x5A everywhere. -/
def c10State : GB := ⟨.romOnly, zeroBuf, zeroBuf, fun _ => 0x5A⟩

/-! ## The claims -/

/-- Claim C1: the specification asserts that for every 16-bit register the
two 8-bit halves are a fixed high/low split — reading the high half returns
bits 15-8, writing the high half leaves bits 7-0 unchanged — independent of
host endianness.  The source's `union Register { value, hi, lo }` places all
three fields at offset 0, so `hi` and `lo` denote the same byte (bits 7-0 of
the value on a little-endian host): reading `hi` of 0x1234 yields 0x34, not
the claimed 0x12, and writing 0xAB through `hi` of 0x0000 changes the low
half to 0xAB instead of leaving it 0x00. -/
theorem C1_register_union_halves_alias :
    regGetHi 0x1234 = 0x34 ∧ regGetHi 0x1234 ≠ 0x12 ∧
    regGetLo (regSetHi 0x0000 0xAB) = 0xAB := by
  decide

/-- Claim C2: the specification asserts that a CB-prefixed instruction's
operand is selected by the low 3 bits of the second, fetched byte, and that
BIT/RES/SET take their bit index from bits 5-3 of that byte.  The decoder's
CB arm instead computes both from the first byte, which is always 0xCB
(`0xCB & 0b111 = 3`, register E; `(0xCB & 0b111) >> 3 = 0`): second byte
0x00 (RLC B on hardware) decodes to RLC E, second byte 0x78 (BIT 7,B)
decodes to BIT 0,E, and second byte 0x0F (RRC A) hits no range arm and
panics. -/
theorem C2_cb_decoder_uses_prefix_byte :
    decodeCB 0xCB 0x00 = some (.rotateLeftCarry .e) ∧
    decodeCB 0xCB 0x78 = some (.bitTest 0 .e) ∧
    decodeCB 0xCB 0x0F = none := by
  decide

/-- Claim C3: the specification asserts that a conditional branch is taken
exactly when its condition holds (NZ: Z=0, Z: Z=1, NC: C=0, C: C=1).  The
source's `From<Condition> for Flag` maps both `Zero` and `NotZero` to
`Flag::Zero` (and both carry conditions to `Flag::Carry`), and the executors
treat the branch as taken exactly when the converted flag is set, so JR NZ
with Z = 0 (flags byte 0x00) is NOT taken: PC stays put and 8 cycles are
reported, where the claim demands PC+offset and 12 cycles. -/
theorem C3_conditional_polarity_lost :
    (jumpRelative (some .notZero) 5 ⟨0x00, 0x0200⟩).1.pc = 0x0200 ∧
    (jumpRelative (some .notZero) 5 ⟨0x00, 0x0200⟩).2 = 8 ∧
    conditionToFlag .notZero = conditionToFlag .zero := by
  decide

/-- Claim C4: the specification asserts that with IME = 1, IE (read from
address 0xFFFF) = 0x01, IF = 0x01, SP = 0xFFFE, PC = 0x1234, the
interrupt-service step services the VBlank interrupt: PC = 0x0040, IF bit 0
cleared, IME = 0, SP = 0xFFFC.  The source reads the enable mask from
`locations::IE = 0xFF40` (the LCDC address), so with memory[0xFFFF] = 0x01
but memory[0xFF40] = 0x00 no bit of `IF & IE` is set and the step changes
nothing: PC stays 0x1234, IME stays set, SP stays 0xFFFE and IF keeps
bit 0. -/
theorem C4_interrupt_enable_read_from_FF40 :
    c4Machine.gb.mem 0xFFFF = 0x01 ∧
    (serviceInterrupts c4Machine).pc = 0x1234 ∧
    (serviceInterrupts c4Machine).ime = true ∧
    (serviceInterrupts c4Machine).sp = 0xFFFE ∧
    read_u8 (serviceInterrupts c4Machine).gb locations.IF = 0x01 := by
  decide

/-- Claim C5: for an MBC1 cartridge starting from the power-up MBC state,
writing 0x0A to 0x0000 enables RAM, writing 0x05 to 0x2000 sets
`rom_bank_idx` to 5 (after which reading 0x4000 returns the ROM byte at
offset 5 × 0x4000), and writing 0x00 to 0x2000 sets `rom_bank_idx` to 1,
not 0.  Holds for every memory, ROM and external-RAM content. -/
theorem C5_mbc1_banking_scenario (mem cart ram : Nat → Nat) :
    (write_u8 ⟨mbc1PowerUp, mem, cart, ram⟩ 0x0000 0x0A).mode
        = .mbc1 1 0 true true ∧
    (write_u8 (write_u8 ⟨mbc1PowerUp, mem, cart, ram⟩ 0x0000 0x0A)
        0x2000 0x05).mode = .mbc1 5 0 true true ∧
    read_u8 (write_u8 (write_u8 ⟨mbc1PowerUp, mem, cart, ram⟩ 0x0000 0x0A)
        0x2000 0x05) 0x4000 = cart (5 * 0x4000) ∧
    (write_u8 (write_u8 (write_u8 ⟨mbc1PowerUp, mem, cart, ram⟩ 0x0000 0x0A)
        0x2000 0x05) 0x2000 0x00).mode = .mbc1 1 0 true true := by
  have h1 : (write_u8 ⟨mbc1PowerUp, mem, cart, ram⟩ 0x0000 0x0A).mode
      = .mbc1 1 0 true true := by
    rw [write_u8_mode]; rfl
  have h2 : (write_u8 (write_u8 ⟨mbc1PowerUp, mem, cart, ram⟩ 0x0000 0x0A)
      0x2000 0x05).mode = .mbc1 5 0 true true := by
    rw [write_u8_mode, h1]; decide
  have h3 : (write_u8 (write_u8 (write_u8 ⟨mbc1PowerUp, mem, cart, ram⟩
      0x0000 0x0A) 0x2000 0x05) 0x2000 0x00).mode = .mbc1 1 0 true true := by
    rw [write_u8_mode, h2]; decide
  refine ⟨h1, h2, ?_, h3⟩
  rw [read_u8_rom_bank _ _ (by norm_num) (by norm_num),
    write_u8_cartridge, write_u8_cartridge, h2]
  norm_num [romBankIdx, ROM_BANK_SIZE]

/-- Claim C6: the specification asserts that ADC A,x sets
C = (A + x + Cin) > 0xFF, including the boundary case x = 0xFF, Cin = 1.
The source computes `a.overflowing_add(value + carry)` where `value + carry`
is an 8-bit addition: for x = 0xFF, Cin = 1 it wraps to 0x00 (a debug build
panics on the overflow), so with A = 0x10 the code leaves C = 0 even though
0x10 + 0xFF + 1 = 0x110 > 0xFF demands C = 1.  (The stored result 0x10
happens to agree with the claim, since 0x110 mod 256 = 0x10.) -/
theorem C6_adc_carry_operand_wraps :
    (adcExecute 0x10 0xFF 1).c = false ∧
    (adcExecute 0x10 0xFF 1).result = 0x10 ∧
    0x10 + 0xFF + 1 > 0xFF := by
  decide

/-- Claim C7 (counterexample): the claim states that for an MBC1 or MBC5
cartridge with `ram_enabled = false`, every read in [0xA000, 0xBFFF]
returns 0xFF.  In `c7State` (MBC1, RAM disabled, external RAM filled with
0xFF) the read at 0xA000 returns 0, not 0xFF. -/
theorem C7_disabled_ram_read_not_FF :
    read_u8 c7State 0xA000 = 0 ∧ read_u8 c7State 0xA000 ≠ 0xFF := by
  decide

/-- Claim C7 (amended): for every MBC1 or MBC5 bus state with
`ram_enabled = false` and every address in [0xA000, 0xBFFF], the read
returns 0x00 (the source's `else { 0 }` branch), not 0xFF; the returned
value is a constant, hence independent of any prior write to the region. -/
theorem C7_disabled_ram_reads_zero (s : GB) (a : Nat)
    (h : mbc15RamDisabled s.mode = true)
    (h1 : 0xA000 ≤ a) (h2 : a ≤ 0xBFFF) :
    read_u8 s a = 0 := by
  unfold read_u8
  rw [if_neg (by omega), if_neg (by omega), if_pos (⟨h1, h2⟩ : _ ∧ _)]
  cases hm : s.mode with
  | mbc1 r rb re bk =>
    rw [hm] at h
    simp only [mbc15RamDisabled, Bool.not_eq_true'] at h
    simp [h]
  | mbc5 r rb re ru =>
    rw [hm] at h
    simp only [mbc15RamDisabled, Bool.not_eq_true'] at h
    simp [h]
  | romOnly => rw [hm] at h; simp [mbc15RamDisabled] at h
  | mbc2 r re => rw [hm] at h; simp [mbc15RamDisabled] at h
  | mbc3 r rb rre sel lat ss mm hh dd =>
    rw [hm] at h; simp [mbc15RamDisabled] at h

/-- Witness for the amended claim C7, at the concrete state `c7State` and
address 0xB000. -/
theorem C7_disabled_ram_reads_zero_witness :
    read_u8 c7State 0xB000 = 0 :=
  C7_disabled_ram_reads_zero c7State 0xB000 (by decide) (by decide) (by decide)

/-- Claim C8: the specification asserts that `write(0xFF07, v)` stores `v`
into TAC (a subsequent read returns `v`) and resets TIMA when the two low
bits change.  The source's TAC arm of the normal-write decode resets TIMA
but never stores the value: from TAC = 0xF8, TIMA = 0x33, writing 0x05 to
0xFF07 leaves TAC reading back 0xF8 (not the claimed 0x05) while TIMA is
cleared to 0 because the low two bits differ. -/
theorem C8_tac_write_drops_value :
    read_u8 c8State 0xFF07 = 0xF8 ∧
    read_u8 (write_u8 c8State 0xFF07 0x05) 0xFF07 = 0xF8 ∧
    read_u8 (write_u8 c8State 0xFF07 0x05) 0xFF07 ≠ 0x05 ∧
    read_u8 (write_u8 c8State 0xFF07 0x05) 0xFF05 = 0 := by
  decide

/-- Claim C9: for every bus state and every sequence of bus writes (any
addresses, any values, any MBC variant), the cartridge ROM buffer is
bit-identical afterwards: no write path stores into the ROM image. -/
theorem C9_rom_never_mutated (s : GB) (ws : List (Nat × Nat)) :
    (writeSeq s ws).cartridge = s.cartridge := by
  induction ws generalizing s with
  | nil => rfl
  | cons hd tl ih =>
    obtain ⟨a, v⟩ := hd
    rw [writeSeq, ih, write_u8_cartridge]

/-- Claim C10: for a RomOnly cartridge, every write to [0xA000, 0xBFFF]
is silently dropped — the whole bus state (MBC state, internal memory,
external RAM) is unchanged — while a read in that region returns the
external-RAM byte at `addr − 0xA000`; hence a read following the write
returns the pre-write byte. -/
theorem C10_romonly_ram_window_writes_dropped (s : GB) (a v : Nat)
    (hmode : s.mode = .romOnly) (h1 : 0xA000 ≤ a) (h2 : a ≤ 0xBFFF) :
    write_u8 s a v = s ∧
    read_u8 (write_u8 s a v) a = s.ram (a - 0xA000) := by
  obtain ⟨mode, mem, cart, ram⟩ := s
  have hm : mode = .romOnly := hmode
  subst hm
  have hw : write_u8 (⟨.romOnly, mem, cart, ram⟩ : GB) a v
      = ⟨.romOnly, mem, cart, ram⟩ := by
    simp [write_u8, mbcRegisterWrite, ramWindowWriteRam, h1, h2]
  refine ⟨hw, ?_⟩
  rw [hw]
  unfold read_u8
  rw [if_neg (by omega), if_neg (by omega), if_pos (⟨h1, h2⟩ : _ ∧ _)]
  simp [ramBankIdx]

/-- Witness for claim C10, at the concrete RomOnly state `c10State`,
address 0xA123 and value 0x77. -/
theorem C10_romonly_ram_window_writes_dropped_witness :
    write_u8 c10State 0xA123 0x77 = c10State ∧
    read_u8 (write_u8 c10State 0xA123 0x77) 0xA123 = c10State.ram (0xA123 - 0xA000) :=
  C10_romonly_ram_window_writes_dropped c10State 0xA123 0x77 (by decide)
    (by decide) (by decide)

end GBemu
